/-
Verification of the vehicle-rig and soft-body-bumper logic of the
Web-soft-body-car-simulation repository.

The repository concatenates several iterated variants of the same classes.
Following the spec's canonicalization (spec.md section 9), the definitions
below embed the canonical design: the hinge + point-to-point suspension Car
with cylindrical wheels (src/js/physics.js, the `class Car` at lines
425-1049) together with the `PhysicsWorld` variant it calls into (src/js
/physics.js lines 1-237, the one providing `createWheelBody`,
`addHingeConstraint` and the deltaTime validation in `update`).

Modelling conventions:
- JavaScript numbers are embedded as exact rationals (`ℚ`); the single
  place where a NaN can flow in from outside (a frame deltaTime) is
  embedded as `JSNum`, a rational extended with a `nan` point.
- A Euclidean distance (`CANNON.Vec3.distanceTo`) and a vector magnitude
  (`length()`) are represented by their squares, which are rational.  The
  map `x ↦ x ^ 2` is injective and order-preserving on the nonnegative
  reals, so equalities and comparisons of distances are faithfully
  represented by equalities and comparisons of the stored squares.
- Quaternions are embedded as the free terms the code builds
  (`set`, `setFromAxisAngle`, `mult`); an angle is recorded as a rational
  multiple of pi plus a rational remainder, which separates the code's
  `Math.PI / 2` constants from its rational steering angles.  The claims
  only ever compare quaternions the code built by the same constructions,
  so no numeric interpretation is needed.
- `CANNON.Body.applyForce` mutates a force accumulator inside the external
  engine; the embedding records each call as an `AppliedForce` value
  returned alongside the new state.
-/
import Mathlib

namespace SoftBodyCar

/-- A 3-component vector with exact rational coordinates
(embedding `CANNON.Vec3`). -/
structure Vec3 where
  x : ℚ
  y : ℚ
  z : ℚ
deriving DecidableEq, Repr

def Vec3.zero : Vec3 := ⟨0, 0, 0⟩

instance : Add Vec3 := ⟨fun a b => ⟨a.x + b.x, a.y + b.y, a.z + b.z⟩⟩

/-- Square of the Euclidean distance computed by
`CANNON.Vec3.distanceTo` (see the modelling conventions above: a distance
is represented by its square). -/
def Vec3.distanceToSq (a b : Vec3) : ℚ :=
  (a.x - b.x) ^ 2 + (a.y - b.y) ^ 2 + (a.z - b.z) ^ 2

/-- Square of the magnitude computed by `CANNON.Vec3.length`. -/
def Vec3.lengthSq (a : Vec3) : ℚ :=
  a.x ^ 2 + a.y ^ 2 + a.z ^ 2

/-- An angle, recorded as `piMul * pi + rad` so that the code's `Math.PI/2`
constants and its rational steering angles stay exact. -/
structure Angle where
  piMul : ℚ
  rad : ℚ
deriving DecidableEq, Repr

/-- Quaternions as the free terms the source constructs: a literal
`quaternion.set(x, y, z, w)`, a `setFromAxisAngle(axis, angle)`, or a
product `a.mult(b)`. -/
inductive Quat where
  | set (x y z w : ℚ)
  | setFromAxisAngle (axis : Vec3) (angle : Angle)
  | mult (a b : Quat)
deriving DecidableEq, Repr

/-- A world-space vector produced from quaternion arithmetic:
`q.vmult(v)` (rotate a local vector into world space) or `w.scale(s)`. -/
inductive WVec where
  | vmult (q : Quat) (v : Vec3)
  | scale (s : ℚ) (w : WVec)
deriving DecidableEq, Repr

/-- A JavaScript number that may be NaN (only the frame deltaTime needs
this; everything else is a plain rational). -/
inductive JSNum where
  | nan
  | num (q : ℚ)
deriving DecidableEq, Repr

/-- One recorded call to `CANNON.Body.applyForce` made on a wheel body:
which wheel, the world-space force vector, and the application point. -/
structure AppliedForce where
  wheel : ℕ
  force : WVec
  point : Vec3
deriving DecidableEq, Repr

/-- One soft-body particle (a small `CANNON.Body` with a sphere shape),
src/js/physics.js lines 199-210. -/
structure Particle where
  position : Vec3
  velocity : Vec3
  angularVelocity : Vec3
  mass : ℚ
deriving DecidableEq, Repr

def Particle.default : Particle := ⟨Vec3.zero, Vec3.zero, Vec3.zero, 0⟩

/-- One damped spring (`CANNON.Spring`) between particles `i` and `j`,
src/js/physics.js lines 221-225.  `restLengthSq` stores the square of the
`restLength` the source computes (see the modelling conventions). -/
structure Spring where
  i : ℕ
  j : ℕ
  restLengthSq : ℚ
  stiffness : ℚ
  damping : ℚ
deriving DecidableEq, Repr

/-- The `{bodies, springs}` record returned by
`PhysicsWorld.createSoftBody`. -/
structure SoftBody where
  bodies : List Particle
  springs : List Spring
deriving DecidableEq, Repr

/-- The springs created for a fixed outer index `i`: the inner loop
`for (let j = i + 1; j < bodies.length; j++)` of src/js/physics.js lines
214-233.  Each spring's rest length is the distance between the two
particles' positions at creation time. -/
def springRow (positions : List Vec3) (stiffness damping : ℚ) (i : ℕ) : List Spring :=
  ((List.range positions.length).filter (fun j => decide (i < j))).map fun j =>
    { i := i
      j := j
      restLengthSq := Vec3.distanceToSq (positions.getD i Vec3.zero) (positions.getD j Vec3.zero)
      stiffness := stiffness
      damping := damping }

/-- The outer loop `for (let i = 0; i < bodies.length; i++)` of
src/js/physics.js lines 213-234, unrolled for the first `n` values of
`i` (rows appended in ascending order of `i`, as the source iterates). -/
def springsUpTo (positions : List Vec3) (stiffness damping : ℚ) : ℕ → List Spring
  | 0 => []
  | n + 1 => springsUpTo positions stiffness damping n ++ springRow positions stiffness damping n

/-- `PhysicsWorld.createSoftBody(positions, mass, stiffness, damping)`,
src/js/physics.js lines 193-237: one particle per input position with
mass `mass / positions.length`, and one damped spring for every pair
`i < j` with rest length the distance between the two particles at
creation time.  (The `segments` parameter and the particle radius only
affect collision shapes and are not part of any claim.) -/
def PhysicsWorld.createSoftBody (positions : List Vec3) (mass stiffness damping : ℚ) :
    SoftBody :=
  { bodies := positions.map fun p =>
      { position := p
        velocity := Vec3.zero
        angularVelocity := Vec3.zero
        mass := mass / positions.length }
    springs := springsUpTo positions stiffness damping positions.length }

/-- `PhysicsWorld.update(deltaTime)`, src/js/physics.js lines 44-53: an
invalid deltaTime (NaN or non-positive) is replaced by the default
timestep 1/60, and `this.world.step` is then invoked once with the
resulting value.  The embedding returns the list of arguments passed to
`world.step` during the call. -/
def PhysicsWorld.stepCalls (deltaTime : JSNum) : List ℚ :=
  match deltaTime with
  | .nan => [1/60]
  | .num dt => if dt ≤ 0 then [1/60] else [dt]

/-- The five control flags, src/js/physics.js lines 446-452. -/
structure Controls where
  forward : Bool
  backward : Bool
  left : Bool
  right : Bool
  brake : Bool
deriving DecidableEq, Repr

/-- One wheel rigid body: the fields of its `CANNON.Body` that the rig
reads or writes. -/
structure Wheel where
  position : Vec3
  velocity : Vec3
  angularVelocity : Vec3
  quaternion : Quat
  angularDamping : ℚ
  linearDamping : ℚ
deriving DecidableEq, Repr

/-- The chassis rigid body: the fields of its `CANNON.Body` that the rig
reads or writes. -/
structure Chassis where
  position : Vec3
  velocity : Vec3
  angularVelocity : Vec3
  quaternion : Quat
deriving DecidableEq, Repr

/-- The canonical `Car` (src/js/physics.js lines 425-1049).  `position`
is the construction argument `this.position` (never mutated); `speed`
stores the square of the reported speed (see the modelling
conventions). -/
structure Car where
  position : Vec3
  chassis : Chassis
  wheels : Fin 4 → Wheel
  frontBumper : SoftBody
  controls : Controls
  steering : ℚ
  speed : ℚ

/-- `this.maxSteeringAngle = 0.5` (src/js/physics.js line 434). -/
def Car.maxSteeringAngle : ℚ := 1/2

/-- `this.maxForce = 500` (src/js/physics.js line 435). -/
def Car.maxForce : ℚ := 500

/-- `this.width = 1.8` (src/js/physics.js line 439). -/
def Car.width : ℚ := 9/5

/-- `this.length = 4.5` (src/js/physics.js line 440). -/
def Car.length : ℚ := 9/2

/-- `this.height = 1.4` (src/js/physics.js line 441). -/
def Car.height : ℚ := 7/5

/-- `this.wheelRadius = 0.4` (src/js/physics.js line 442). -/
def Car.wheelRadius : ℚ := 2/5

/-- `const steeringSpeed = 2.0` (src/js/physics.js line 883). -/
def Car.steeringSpeed : ℚ := 2

/-- `const steeringReturnSpeed = 3.0` (src/js/physics.js line 884). -/
def Car.steeringReturnSpeed : ℚ := 3

/-- `this.wheelPositions` (src/js/physics.js lines 650-655): the local
offset of each wheel from the chassis, front left / front right / rear
left / rear right. -/
def wheelOffset : Fin 4 → Vec3
  | 0 => ⟨Car.length * (3/10), -Car.height/2 + Car.wheelRadius, -Car.width/2⟩
  | 1 => ⟨Car.length * (3/10), -Car.height/2 + Car.wheelRadius, Car.width/2⟩
  | 2 => ⟨-(Car.length * (3/10)), -Car.height/2 + Car.wheelRadius, -Car.width/2⟩
  | 3 => ⟨-(Car.length * (3/10)), -Car.height/2 + Car.wheelRadius, Car.width/2⟩

/-- `const segments = 8` (src/js/physics.js line 755). -/
def bumperSegments : ℕ := 8

/-- `const frontBumperWidth = this.width * 0.9`
(src/js/physics.js line 754). -/
def frontBumperWidth : ℚ := Car.width * (9/10)

/-- The bumper particle offsets from the chassis
(src/js/physics.js lines 757-763): `x = length/2 + 0.1`,
`y = -height/3`, `z = -frontBumperWidth/2 + (frontBumperWidth/(segments-1)) * i`. -/
def bumperOffset (i : ℕ) : Vec3 :=
  ⟨Car.length/2 + 1/10,
   -Car.height/3,
   -frontBumperWidth/2 + (frontBumperWidth / ((bumperSegments : ℚ) - 1)) * i⟩

/-- The rest (non-steered) wheel orientation
`setFromAxisAngle(new CANNON.Vec3(0,0,1), Math.PI/2)`, built identically
in `createWheelBody` (line 163), `updateSteering` (lines 909-910) and
`reset` (lines 994-995). -/
def wheelRestQuat : Quat := Quat.setFromAxisAngle ⟨0, 0, 1⟩ ⟨1/2, 0⟩

/-- The steering rotation `setFromAxisAngle(new CANNON.Vec3(0,1,0), steering)`
(src/js/physics.js lines 905-906). -/
def steeringQuat (steering : ℚ) : Quat := Quat.setFromAxisAngle ⟨0, 1, 0⟩ ⟨0, steering⟩

/-- The scalar steering recurrence of `Car.updateSteering`
(src/js/physics.js lines 886-898): ramp toward the clamp while `left` or
`right` is held, otherwise relax toward 0 at `steeringReturnSpeed`,
clamped so it never crosses zero. -/
def nextSteering (controls : Controls) (steering deltaTime : ℚ) : ℚ :=
  if controls.left then
    min (steering + Car.steeringSpeed * deltaTime) Car.maxSteeringAngle
  else if controls.right then
    max (steering - Car.steeringSpeed * deltaTime) (-Car.maxSteeringAngle)
  else if 0 < steering then
    max (steering - Car.steeringReturnSpeed * deltaTime) 0
  else if steering < 0 then
    min (steering + Car.steeringReturnSpeed * deltaTime) 0
  else steering

/-- `Car.updateSteering(deltaTime)`, src/js/physics.js lines 881-915:
update the steering angle, then rewrite each front wheel's orientation as
`steeringQuat(steering).mult(defaultQuat)`. -/
def Car.updateSteering (deltaTime : ℚ) (c : Car) : Car :=
  let s := nextSteering c.controls c.steering deltaTime
  { c with
    steering := s
    wheels := fun i =>
      if i.val < 2 then { c.wheels i with quaternion := (steeringQuat s).mult wheelRestQuat }
      else c.wheels i }

/-- The `engineForce` local of `Car.updateDriving`
(src/js/physics.js lines 919-926): `maxForce` while `forward` is held,
`-maxForce * 0.5` while `backward` is held (and `forward` is not, by the
`else if`), 0 otherwise. -/
def engineForceOf (controls : Controls) : ℚ :=
  if controls.forward then Car.maxForce
  else if controls.backward then -Car.maxForce * (1/2)
  else 0

/-- The two `applyForce` calls `Car.updateDriving` makes when its engine
force is `f`: for each rear wheel (indices 2 and 3), the force
`worldForceDir.scale(f)` with `worldForceDir = quaternion.vmult((1,0,0))`,
applied at the wheel's position (src/js/physics.js lines 932-938). -/
def engineForceApplications (c : Car) (f : ℚ) : List AppliedForce :=
  [ { wheel := 2
      force := WVec.scale f (WVec.vmult (c.wheels 2).quaternion ⟨1, 0, 0⟩)
      point := (c.wheels 2).position },
    { wheel := 3
      force := WVec.scale f (WVec.vmult (c.wheels 3).quaternion ⟨1, 0, 0⟩)
      point := (c.wheels 3).position } ]

/-- `Car.updateDriving(deltaTime)`, src/js/physics.js lines 917-957: for
each rear wheel (the loop `for (let i = 2; i < 4; i++)`), apply the
engine force along the wheel's world-space local +X direction when the
force is nonzero, and set the wheel's damping coefficients from the brake
flag (0.95/0.9 braking, 0.1/0.05 otherwise); finally record the chassis
speed.  (The source's `isNaN` guard on the speed cannot fire over ℚ.)
Returns the new state and the recorded `applyForce` calls. -/
def Car.updateDriving (_deltaTime : ℚ) (c : Car) : Car × List AppliedForce :=
  let engineForce := engineForceOf c.controls
  let forces := if engineForce ≠ 0 then engineForceApplications c engineForce else []
  let wheels' := fun i : Fin 4 =>
    if 2 ≤ i.val then
      { c.wheels i with
        angularDamping := if c.controls.brake then 19/20 else 1/10
        linearDamping := if c.controls.brake then 9/10 else 1/20 }
    else c.wheels i
  ({ c with wheels := wheels', speed := c.chassis.velocity.lengthSq }, forces)

/-- `Car.resetWheelPositions()`, src/js/physics.js lines 1027-1048: set
each wheel's world position to the chassis position plus the wheel's
local offset. -/
def Car.resetWheelPositions (c : Car) : Car :=
  { c with
    wheels := fun i => { c.wheels i with position := c.chassis.position + wheelOffset i } }

/-- The bumper-particle position formula of `Car.reset`
(src/js/physics.js lines 1009-1013), relative to the (already reset)
chassis position; `n` is `this.frontBumper.bodies.length`. -/
def bumperResetPosition (chassisPos : Vec3) (n i : ℕ) : Vec3 :=
  ⟨chassisPos.x + Car.length/2 + 1/10,
   chassisPos.y - Car.height/3,
   chassisPos.z - (Car.width * (9/10))/2 + ((Car.width * (9/10)) / ((n : ℚ) - 1)) * i⟩

/-- `Car.reset()`, src/js/physics.js lines 978-1024: move the chassis to
the rest pose `(x, y + height, z)` with identity orientation and zero
velocities; reposition the wheels via `resetWheelPositions` and restore
their rest orientation, zero velocities and normal damping; restore every
bumper particle to its rest-offset position with zero velocities; clear
all control flags, the speed and the steering angle.  No body or
constraint is created or destroyed and the spring list is untouched. -/
def Car.reset (c : Car) : Car :=
  let chassis' : Chassis :=
    { position := ⟨c.position.x, c.position.y + Car.height, c.position.z⟩
      quaternion := Quat.set 0 0 0 1
      velocity := Vec3.zero
      angularVelocity := Vec3.zero }
  let c1 := Car.resetWheelPositions { c with chassis := chassis' }
  let wheels' := fun i : Fin 4 =>
    { c1.wheels i with
      quaternion := wheelRestQuat
      velocity := Vec3.zero
      angularVelocity := Vec3.zero
      angularDamping := 1/10
      linearDamping := 1/20 }
  let n := c.frontBumper.bodies.length
  let bodies' := (List.range n).map fun i =>
    { c.frontBumper.bodies.getD i Particle.default with
      position := bumperResetPosition chassis'.position n i
      velocity := Vec3.zero
      angularVelocity := Vec3.zero }
  { c1 with
    wheels := wheels'
    frontBumper := { c.frontBumper with bodies := bodies' }
    controls := ⟨false, false, false, false, false⟩
    speed := 0
    steering := 0 }

/-- `Car.update(deltaTime)`, src/js/physics.js lines 853-879: skip the
whole update when deltaTime is NaN or non-positive; otherwise run
`updateSteering` and `updateDriving` (the visual sync touches no physics
state), and finally self-trigger `reset()` when the chassis has fallen
below y = -10. -/
def Car.update (deltaTime : JSNum) (c : Car) : Car × List AppliedForce :=
  match deltaTime with
  | .nan => (c, [])
  | .num dt =>
    if dt ≤ 0 then (c, [])
    else
      let c1 := c.updateSteering dt
      let p := c1.updateDriving dt
      ((if p.1.chassis.position.y < -10 then p.1.reset else p.1), p.2)

/-- The `Car` constructor plus `init()` (src/js/physics.js lines
426-487): chassis created at `max(y, height/2 + 0.5)` then forced back to
the spawn position at the end of `init`; wheels created by
`createWheelBody` (rest orientation, angular damping 0.2, the engine's
default linear damping 0.01) and finally repositioned by
`resetWheelPositions`; the front bumper built by `createSoftBody` over
the 8 arc positions with mass 100, stiffness 1000, damping 0.3. -/
def Car.create (position : Vec3) : Car :=
  let startY := max position.y (Car.height/2 + 1/2)
  let chassis0 : Chassis :=
    { position := ⟨position.x, startY, position.z⟩
      quaternion := Quat.set 0 0 0 1
      velocity := Vec3.zero
      angularVelocity := Vec3.zero }
  let wheels0 := fun i : Fin 4 =>
    { position := position + wheelOffset i
      velocity := Vec3.zero
      angularVelocity := Vec3.zero
      quaternion := wheelRestQuat
      angularDamping := 1/5
      linearDamping := 1/100 : Wheel }
  let bumper := PhysicsWorld.createSoftBody
    ((List.range bumperSegments).map fun i => position + bumperOffset i) 100 1000 (3/10)
  let c0 : Car :=
    { position := position
      chassis := { chassis0 with position := position }
      wheels := wheels0
      frontBumper := bumper
      controls := ⟨false, false, false, false, false⟩
      steering := 0
      speed := 0 }
  c0.resetWheelPositions

/-! ## Concrete states for witnesses -/

/-- A car constructed at the default spawn position `(0, 1, 0)`
(src/js/physics.js line 426). -/
def carA : Car := Car.create ⟨0, 1, 0⟩

/-- The spawned car after its chassis has fallen to y = -11 (below the
sanity floor). -/
def carFall : Car := { carA with chassis := { carA.chassis with position := ⟨0, -11, 0⟩ } }

/-- The spawned car with `forward` and `brake` held. -/
def carFwdBrake : Car := { carA with controls := ⟨true, false, false, false, true⟩ }

/-- The spawned car with `backward` held. -/
def carBack : Car := { carA with controls := ⟨false, true, false, false, false⟩ }

/-- The spawned car with `forward` and `backward` both held. -/
def carBoth : Car := { carA with controls := ⟨true, true, false, false, false⟩ }

/-- The spawned car mid-turn, steering at 0.3 rad with no input held. -/
def carTurn : Car := { carA with steering := 3/10 }

/-! ## Steering: helper lemmas -/

/-- One steering step, as a control-flag setting followed by an
`updateSteering` call. -/
structure SteerStep where
  left : Bool
  right : Bool
  dt : ℚ

/-- Iterate: set the `left`/`right` flags, then call `updateSteering`. -/
def applySteerSteps (c : Car) (steps : List SteerStep) : Car :=
  steps.foldl
    (fun car st =>
      Car.updateSteering st.dt
        { car with controls := { car.controls with left := st.left, right := st.right } })
    c

/-- Iterate `updateSteering` alone over a list of timesteps. -/
def applySteerDts (c : Car) (dts : List ℚ) : Car :=
  dts.foldl (fun car dt => Car.updateSteering dt car) c

lemma Car.updateSteering_steering (dt : ℚ) (c : Car) :
    (c.updateSteering dt).steering = nextSteering c.controls c.steering dt := rfl

lemma Car.updateSteering_controls (dt : ℚ) (c : Car) :
    (c.updateSteering dt).controls = c.controls := rfl

lemma abs_nextSteering_le (controls : Controls) (s dt : ℚ)
    (hs : |s| ≤ Car.maxSteeringAngle) (hdt : 0 ≤ dt) :
    |nextSteering controls s dt| ≤ Car.maxSteeringAngle := by
  rw [abs_le] at hs ⊢
  obtain ⟨hs1, hs2⟩ := hs
  unfold nextSteering Car.maxSteeringAngle Car.steeringSpeed Car.steeringReturnSpeed at *
  split_ifs with h1 h2 h3 h4
  · exact ⟨le_min (by linarith) (by norm_num), min_le_right _ _⟩
  · exact ⟨le_max_right _ _, max_le (by linarith) (by norm_num)⟩
  · exact ⟨le_trans (by norm_num) (le_max_right _ _), max_le (by linarith) (by norm_num)⟩
  · exact ⟨le_min (by linarith) (by norm_num), le_trans (min_le_right _ _) (by norm_num)⟩
  · exact ⟨hs1, hs2⟩

lemma abs_applySteerSteps_le (steps : List SteerStep) :
    ∀ c : Car, (∀ st ∈ steps, 0 ≤ st.dt) → |c.steering| ≤ Car.maxSteeringAngle →
      |(applySteerSteps c steps).steering| ≤ Car.maxSteeringAngle := by
  induction steps with
  | nil => intro c _ h; exact h
  | cons st steps ih =>
    intro c hdt h
    refine ih _ (fun x hx => hdt x (List.mem_cons_of_mem _ hx)) ?_
    rw [Car.updateSteering_steering]
    exact abs_nextSteering_le _ _ _ h (hdt st (List.mem_cons_self _ _))

lemma nextSteering_no_input_nonneg (controls : Controls) (s dt : ℚ)
    (hL : controls.left = false) (hR : controls.right = false)
    (hs : 0 ≤ s) (hdt : 0 ≤ dt) :
    nextSteering controls s dt = max (s - Car.steeringReturnSpeed * dt) 0 := by
  unfold nextSteering
  rw [hL, hR]
  simp only [Bool.false_eq_true, if_false]
  rcases lt_or_eq_of_le hs with h | h
  · rw [if_pos h]
  · rw [if_neg (by rw [← h]; exact lt_irrefl 0), if_neg (by rw [← h]; exact lt_irrefl 0), ← h]
    have : -(Car.steeringReturnSpeed * dt) ≤ 0 := by
      unfold Car.steeringReturnSpeed; nlinarith
    rw [max_eq_right (by linarith)]

lemma nextSteering_no_input_nonpos (controls : Controls) (s dt : ℚ)
    (hL : controls.left = false) (hR : controls.right = false)
    (hs : s ≤ 0) (hdt : 0 ≤ dt) :
    nextSteering controls s dt = min (s + Car.steeringReturnSpeed * dt) 0 := by
  unfold nextSteering
  rw [hL, hR]
  simp only [Bool.false_eq_true, if_false]
  rcases lt_or_eq_of_le hs with h | h
  · rw [if_neg (by linarith), if_pos h]
  · rw [if_neg (by rw [h]; exact lt_irrefl 0), if_neg (by rw [h]; exact lt_irrefl 0), h]
    have : 0 ≤ Car.steeringReturnSpeed * dt := by
      unfold Car.steeringReturnSpeed; nlinarith
    rw [min_eq_right (by linarith)]

lemma max_sub_max_zero (a b : ℚ) (hb : 0 ≤ b) :
    max (max a 0 - b) 0 = max (a - b) 0 := by
  rcases le_or_lt a 0 with h | h
  · rw [max_eq_right h, max_eq_right (by linarith), max_eq_right (by linarith)]
  · rw [max_eq_left (le_of_lt h)]

lemma min_add_min_zero (a b : ℚ) (hb : 0 ≤ b) :
    min (min a 0 + b) 0 = min (a + b) 0 := by
  rcases le_or_lt 0 a with h | h
  · rw [min_eq_right h, min_eq_right (by linarith), min_eq_right (by linarith)]
  · rw [min_eq_left (le_of_lt h)]

lemma applySteerDts_no_input_nonneg (dts : List ℚ) :
    ∀ c : Car, c.controls.left = false → c.controls.right = false →
      0 ≤ c.steering → (∀ dt ∈ dts, 0 ≤ dt) →
      (applySteerDts c dts).steering =
        max (c.steering - Car.steeringReturnSpeed * dts.sum) 0 := by
  induction dts with
  | nil =>
    intro c _ _ hs _
    show c.steering = _
    rw [List.sum_nil, mul_zero, sub_zero, max_eq_left hs]
  | cons dt dts ih =>
    intro c hL hR hs hdt
    have hdt0 : 0 ≤ dt := hdt dt (List.mem_cons_self _ _)
    have hstep : (c.updateSteering dt).steering =
        max (c.steering - Car.steeringReturnSpeed * dt) 0 := by
      rw [Car.updateSteering_steering]
      exact nextSteering_no_input_nonneg _ _ _ hL hR hs hdt0
    have := ih (c.updateSteering dt)
      (by rw [Car.updateSteering_controls]; exact hL)
      (by rw [Car.updateSteering_controls]; exact hR)
      (by rw [hstep]; exact le_max_right _ _)
      (fun x hx => hdt x (List.mem_cons_of_mem _ hx))
    show (applySteerDts (c.updateSteering dt) dts).steering = _
    rw [this, hstep, List.sum_cons]
    have hsum : 0 ≤ Car.steeringReturnSpeed * dts.sum := by
      unfold Car.steeringReturnSpeed
      have : 0 ≤ dts.sum := List.sum_nonneg (fun x hx => hdt x (List.mem_cons_of_mem _ hx))
      nlinarith
    rw [max_sub_max_zero _ _ hsum]
    ring_nf

lemma applySteerDts_no_input_nonpos (dts : List ℚ) :
    ∀ c : Car, c.controls.left = false → c.controls.right = false →
      c.steering ≤ 0 → (∀ dt ∈ dts, 0 ≤ dt) →
      (applySteerDts c dts).steering =
        min (c.steering + Car.steeringReturnSpeed * dts.sum) 0 := by
  induction dts with
  | nil =>
    intro c _ _ hs _
    show c.steering = _
    rw [List.sum_nil, mul_zero, add_zero, min_eq_left hs]
  | cons dt dts ih =>
    intro c hL hR hs hdt
    have hdt0 : 0 ≤ dt := hdt dt (List.mem_cons_self _ _)
    have hstep : (c.updateSteering dt).steering =
        min (c.steering + Car.steeringReturnSpeed * dt) 0 := by
      rw [Car.updateSteering_steering]
      exact nextSteering_no_input_nonpos _ _ _ hL hR hs hdt0
    have := ih (c.updateSteering dt)
      (by rw [Car.updateSteering_controls]; exact hL)
      (by rw [Car.updateSteering_controls]; exact hR)
      (by rw [hstep]; exact min_le_right _ _)
      (fun x hx => hdt x (List.mem_cons_of_mem _ hx))
    show (applySteerDts (c.updateSteering dt) dts).steering = _
    rw [this, hstep, List.sum_cons]
    have hsum : 0 ≤ Car.steeringReturnSpeed * dts.sum := by
      unfold Car.steeringReturnSpeed
      have : 0 ≤ dts.sum := List.sum_nonneg (fun x hx => hdt x (List.mem_cons_of_mem _ hx))
      nlinarith
    rw [min_add_min_zero _ _ hsum]
    ring_nf

/-! ## Claims C2 and C3 -/

/-- Claim C2: starting from steering angle 0, for every sequence of
control-flag settings (left/right held or not, in any order) and every
sequence of `updateSteering` calls with dt ≥ 0, the steering angle after
every call remains within `[-maxSteeringAngle, maxSteeringAngle]` =
[-0.5, 0.5] radians. -/
theorem steering_always_clamped (c : Car) (h0 : c.steering = 0)
    (steps : List SteerStep) (hdt : ∀ st ∈ steps, 0 ≤ st.dt) (n : ℕ) :
    |(applySteerSteps c (steps.take n)).steering| ≤ Car.maxSteeringAngle := by
  refine abs_applySteerSteps_le _ _ (fun st hst => hdt st ((steps.take_sublist n).subset hst)) ?_
  rw [h0, abs_zero]
  unfold Car.maxSteeringAngle
  norm_num

/-- Witness for C2: one step holding `left` for a full second from the
freshly spawned car lands exactly on the clamp and stays in range. -/
theorem steering_always_clamped_witness :
    |(applySteerSteps carA ([⟨true, false, 1⟩].take 1)).steering| ≤ Car.maxSteeringAngle :=
  steering_always_clamped carA rfl [⟨true, false, 1⟩] (by decide) 1

/-- Claim C3: if neither `left` nor `right` is held across a run of
consecutive `updateSteering` calls whose cumulative dt is at least
`|initial angle| / steeringReturnSpeed` (equivalently
`|initial angle| ≤ steeringReturnSpeed * Σ dt`), then the steering angle
is exactly 0 after the run, and at every intermediate call it keeps the
sign of the initial angle (it never overshoots past zero). -/
theorem steering_returns_to_zero (c : Car) (dts : List ℚ)
    (hL : c.controls.left = false) (hR : c.controls.right = false)
    (hdt : ∀ dt ∈ dts, 0 ≤ dt)
    (hsum : |c.steering| ≤ Car.steeringReturnSpeed * dts.sum) :
    (applySteerDts c dts).steering = 0 ∧
    ∀ n : ℕ,
      (0 ≤ c.steering → 0 ≤ (applySteerDts c (dts.take n)).steering) ∧
      (c.steering ≤ 0 → (applySteerDts c (dts.take n)).steering ≤ 0) := by
  constructor
  · rcases le_total 0 c.steering with hs | hs
    · rw [applySteerDts_no_input_nonneg dts c hL hR hs hdt]
      rw [abs_of_nonneg hs] at hsum
      rw [max_eq_right (by linarith)]
    · rw [applySteerDts_no_input_nonpos dts c hL hR hs hdt]
      rw [abs_of_nonpos hs] at hsum
      rw [min_eq_right (by linarith)]
  · intro n
    constructor
    · intro hs
      rw [applySteerDts_no_input_nonneg _ c hL hR hs
        (fun dt hx => hdt dt ((dts.take_sublist n).subset hx))]
      exact le_max_right _ _
    · intro hs
      rw [applySteerDts_no_input_nonpos _ c hL hR hs
        (fun dt hx => hdt dt ((dts.take_sublist n).subset hx))]
      exact min_le_right _ _

/-- Witness for C3: from steering 0.3 rad with no input, a single 0.1 s
step (cumulative dt = 0.1 ≥ 0.3 / 3.0) brings the angle exactly to 0. -/
theorem steering_returns_to_zero_witness :
    (applySteerDts carTurn [1/10]).steering = 0 :=
  (steering_returns_to_zero carTurn [1/10] rfl rfl (by norm_num)
    (by show |(3/10 : ℚ)| ≤ Car.steeringReturnSpeed * [(1/10 : ℚ)].sum
        norm_num [Car.steeringReturnSpeed, abs_le])).1

/-! ## Driving: helper lemmas -/

lemma engineForceOf_forward (controls : Controls) (h : controls.forward = true) :
    engineForceOf controls = Car.maxForce := by
  unfold engineForceOf
  rw [h]
  exact if_pos rfl

lemma engineForceOf_backward (controls : Controls)
    (h1 : controls.forward = false) (h2 : controls.backward = true) :
    engineForceOf controls = -Car.maxForce * (1/2) := by
  unfold engineForceOf
  rw [h1, h2, if_neg Bool.false_ne_true]
  exact if_pos rfl

lemma engineForceOf_none (controls : Controls)
    (h1 : controls.forward = false) (h2 : controls.backward = false) :
    engineForceOf controls = 0 := by
  unfold engineForceOf
  rw [h1, h2, if_neg Bool.false_ne_true]
  exact if_neg Bool.false_ne_true

lemma Car.updateDriving_forces (dt : ℚ) (c : Car) :
    (Car.updateDriving dt c).2 =
      if engineForceOf c.controls ≠ 0 then engineForceApplications c (engineForceOf c.controls)
      else [] := rfl

lemma Car.updateDriving_wheel_two (dt : ℚ) (c : Car) :
    (Car.updateDriving dt c).1.wheels 2 =
      { c.wheels 2 with
        angularDamping := if c.controls.brake then 19/20 else 1/10
        linearDamping := if c.controls.brake then 9/10 else 1/20 } := rfl

lemma Car.updateDriving_wheel_three (dt : ℚ) (c : Car) :
    (Car.updateDriving dt c).1.wheels 3 =
      { c.wheels 3 with
        angularDamping := if c.controls.brake then 19/20 else 1/10
        linearDamping := if c.controls.brake then 9/10 else 1/20 } := rfl

/-! ## Claims C4, C10 and C9 -/

/-- Claim C4 as stated: on every `updateDriving` call the engine force is
0 when both `forward` and `backward` are false, `+maxForce` along each
rear wheel's world-space local +X direction while `forward` is held,
`-maxForce*0.5` while `backward` is held, and no engine force is ever
applied to the front wheels.  (This reading takes each "while ... is
held" clause unconditionally, as the claim words it.) -/
def claimC4Stated : Prop :=
  ∀ (c : Car) (dt : ℚ),
    ((c.controls.forward = false ∧ c.controls.backward = false) →
      (Car.updateDriving dt c).2 = []) ∧
    (c.controls.forward = true →
      (Car.updateDriving dt c).2 = engineForceApplications c Car.maxForce) ∧
    (c.controls.backward = true →
      (Car.updateDriving dt c).2 = engineForceApplications c (-Car.maxForce * (1/2))) ∧
    (∀ af ∈ (Car.updateDriving dt c).2, af.wheel = 2 ∨ af.wheel = 3)

/-- Counterexample to C4 as stated: when `forward` and `backward` are
both held (state `carBoth`), the `else if` gives `forward` priority and
the rear wheels receive `+maxForce`, not `-maxForce*0.5`; the two clauses
of the claim contradict each other on this input. -/
theorem claimC4Stated_false : ¬ claimC4Stated := fun h => by
  have h1 := (h carBoth 1).2.1 rfl
  have h2 := (h carBoth 1).2.2.1 rfl
  rw [h1] at h2
  norm_num [engineForceApplications, Car.maxForce] at h2

/-- Claim C4 (amended): on every `updateDriving` call the engine force is
`+maxForce` along each rear wheel's world-space local +X direction while
`forward` is held, `-maxForce*0.5` while `backward` is held and `forward`
is not (the `else if` gives `forward` priority when both are held), and 0
when neither is held; every applied force goes to a rear wheel (index 2
or 3), never to a front wheel. -/
theorem engine_force_cases (c : Car) (dt : ℚ) :
    (Car.updateDriving dt c).2 =
      (if c.controls.forward then engineForceApplications c Car.maxForce
       else if c.controls.backward then engineForceApplications c (-Car.maxForce * (1/2))
       else []) ∧
    (∀ af ∈ (Car.updateDriving dt c).2, af.wheel = 2 ∨ af.wheel = 3) := by
  have hforces : (Car.updateDriving dt c).2 =
      if engineForceOf c.controls ≠ 0 then engineForceApplications c (engineForceOf c.controls)
      else [] := rfl
  have hcases : (Car.updateDriving dt c).2 =
      (if c.controls.forward then engineForceApplications c Car.maxForce
       else if c.controls.backward then engineForceApplications c (-Car.maxForce * (1/2))
       else []) := by
    rw [hforces]
    cases hf : c.controls.forward with
    | true =>
      rw [engineForceOf_forward c.controls hf, if_pos (by norm_num [Car.maxForce] :
        Car.maxForce ≠ 0)]
      rfl
    | false =>
      cases hb : c.controls.backward with
      | true =>
        rw [engineForceOf_backward c.controls hf hb, if_pos (by norm_num [Car.maxForce] :
          -Car.maxForce * (1/2) ≠ 0)]
        rfl
      | false =>
        rw [engineForceOf_none c.controls hf hb, if_neg (by norm_num : ¬ (0 : ℚ) ≠ 0)]
        rfl
  refine ⟨hcases, ?_⟩
  intro af haf
  rw [hcases] at haf
  have hmem : af ∈ engineForceApplications c Car.maxForce ∨
      af ∈ engineForceApplications c (-Car.maxForce * (1/2)) ∨ af ∈ ([] : List AppliedForce) := by
    split_ifs at haf
    · exact Or.inl haf
    · exact Or.inr (Or.inl haf)
    · exact Or.inr (Or.inr haf)
  have hwheel : ∀ f : ℚ, af ∈ engineForceApplications c f → af.wheel = 2 ∨ af.wheel = 3 := by
    intro f hf
    simp only [engineForceApplications, List.mem_cons, List.not_mem_nil, or_false] at hf
    rcases hf with h | h
    · rw [h]; exact Or.inl rfl
    · rw [h]; exact Or.inr rfl
  rcases hmem with h | h | h
  · exact hwheel _ h
  · exact hwheel _ h
  · cases h

/-- Claim C10: holding `brake` does not zero or reduce the engine force
in the canonical `updateDriving`: with `forward` and `brake` both held
the full `+maxForce` is still applied to both rear wheels; the brake flag
only switches the rear wheels' angular damping (0.95 vs 0.1) and linear
damping (0.9 vs 0.05), and the front wheels are untouched. -/
theorem brake_does_not_cut_engine_force (c : Car) (dt : ℚ)
    (hf : c.controls.forward = true) (hb : c.controls.brake = true) :
    (Car.updateDriving dt c).2 = engineForceApplications c Car.maxForce ∧
    ((Car.updateDriving dt c).1.wheels 2).angularDamping = 19/20 ∧
    ((Car.updateDriving dt c).1.wheels 3).angularDamping = 19/20 ∧
    ((Car.updateDriving dt c).1.wheels 2).linearDamping = 9/10 ∧
    ((Car.updateDriving dt c).1.wheels 3).linearDamping = 9/10 ∧
    ((Car.updateDriving dt c).1.wheels 0) = c.wheels 0 ∧
    ((Car.updateDriving dt c).1.wheels 1) = c.wheels 1 ∧
    (Car.updateDriving dt { c with controls := { c.controls with brake := false } }).2 =
      (Car.updateDriving dt c).2 ∧
    ((Car.updateDriving dt
        { c with controls := { c.controls with brake := false } }).1.wheels 2).angularDamping
      = 1/10 ∧
    ((Car.updateDriving dt
        { c with controls := { c.controls with brake := false } }).1.wheels 2).linearDamping
      = 1/20 := by
  have hforce : (Car.updateDriving dt c).2 = engineForceApplications c Car.maxForce := by
    rw [Car.updateDriving_forces, engineForceOf_forward c.controls hf,
      if_pos (by norm_num [Car.maxForce] : Car.maxForce ≠ 0)]
  refine ⟨hforce, ?_, ?_, ?_, ?_, rfl, rfl, rfl, rfl, rfl⟩
  · rw [Car.updateDriving_wheel_two]
    show (if c.controls.brake then (19/20 : ℚ) else 1/10) = 19/20
    rw [hb]
    exact if_pos rfl
  · rw [Car.updateDriving_wheel_three]
    show (if c.controls.brake then (19/20 : ℚ) else 1/10) = 19/20
    rw [hb]
    exact if_pos rfl
  · rw [Car.updateDriving_wheel_two]
    show (if c.controls.brake then (9/10 : ℚ) else 1/20) = 9/10
    rw [hb]
    exact if_pos rfl
  · rw [Car.updateDriving_wheel_three]
    show (if c.controls.brake then (9/10 : ℚ) else 1/20) = 9/10
    rw [hb]
    exact if_pos rfl

/-- Witness for C10: for the spawned car holding `forward` and `brake`,
the full 500 N engine force is applied to both rear wheels. -/
theorem brake_does_not_cut_engine_force_witness :
    (Car.updateDriving 1 carFwdBrake).2 = engineForceApplications carFwdBrake Car.maxForce :=
  (brake_does_not_cut_engine_force carFwdBrake 1 rfl rfl).1

/-- Claim C9: `reset()` forces all five control flags to false and zeroes
both the steering angle and the reported speed, regardless of the state
it is called in. -/
theorem reset_clears_controls (c : Car) :
    (Car.reset c).controls = ⟨false, false, false, false, false⟩ ∧
    (Car.reset c).steering = 0 ∧
    (Car.reset c).speed = 0 :=
  ⟨rfl, rfl, rfl⟩

/-! ## Claims C8, C5 and C7 -/

/-- Claim C8: if `PhysicsWorld.update` is called with a deltaTime that is
NaN or non-positive, the invalid value is replaced by the default
timestep 1/60 and the physics step is still performed with that default;
any valid (positive) deltaTime is passed to `world.step` unchanged. -/
theorem physics_update_default_timestep :
    PhysicsWorld.stepCalls JSNum.nan = [1/60] ∧
    (∀ q : ℚ, q ≤ 0 → PhysicsWorld.stepCalls (JSNum.num q) = [1/60]) ∧
    (∀ q : ℚ, 0 < q → PhysicsWorld.stepCalls (JSNum.num q) = [q]) := by
  refine ⟨rfl, ?_, ?_⟩
  · intro q hq
    show (if q ≤ 0 then ([1/60] : List ℚ) else [q]) = [1/60]
    rw [if_pos hq]
  · intro q hq
    show (if q ≤ 0 then ([1/60] : List ℚ) else [q]) = [q]
    rw [if_neg (not_le.mpr hq)]

/-- Claim C5: after `reset()`, each of the four wheels sits exactly at
the chassis rest position plus its local offset, with its rest
(non-steered) orientation and zero linear and angular velocity; the
chassis rest position is `(x, y + height, z)` of the construction
position. -/
theorem reset_restores_wheels (c : Car) (i : Fin 4) :
    ((Car.reset c).wheels i).position = (Car.reset c).chassis.position + wheelOffset i ∧
    (Car.reset c).chassis.position = ⟨c.position.x, c.position.y + Car.height, c.position.z⟩ ∧
    ((Car.reset c).wheels i).quaternion = wheelRestQuat ∧
    ((Car.reset c).wheels i).velocity = Vec3.zero ∧
    ((Car.reset c).wheels i).angularVelocity = Vec3.zero :=
  ⟨rfl, rfl, rfl, rfl, rfl⟩

/-- Claim C7 as stated: whenever the chassis Y position is below the
sanity floor (-10) at the time `Car.update` runs, the rig self-triggers
`reset()` within that same update. -/
def claimC7Stated : Prop :=
  ∀ (c : Car) (deltaTime : JSNum),
    c.chassis.position.y < -10 → (Car.update deltaTime c).1 = Car.reset c

/-- Counterexample to C7 as stated: `Car.update` first validates its
deltaTime and returns immediately (skipping the fall check and the reset)
when it is NaN or non-positive.  With the chassis at y = -11 and
deltaTime 0, the state is returned unchanged, which differs from the
reset state. -/
theorem claimC7Stated_false : ¬ claimC7Stated := fun h => by
  have h1 := h carFall (JSNum.num 0) (show (-11 : ℚ) < -10 by norm_num)
  have h2 := congrArg (fun car => car.chassis.position.y) h1
  have h3 : (-11 : ℚ) = 1 + 7/5 := h2
  norm_num at h3

/-- Claim C7 (amended): whenever `Car.update` runs with a valid (finite,
positive) deltaTime and the chassis Y position is below the sanity floor
(-10), the rig self-triggers `reset()` within that same update —
restoring the rest pose and zeroing velocities — rather than surfacing an
error; with an invalid deltaTime the whole update (including the fall
check) is skipped. -/
theorem update_resets_below_floor (c : Car) (dt : ℚ)
    (hdt : 0 < dt) (hy : c.chassis.position.y < -10) :
    (Car.update (JSNum.num dt) c).1 = Car.reset c := by
  have hdef : Car.update (JSNum.num dt) c =
      (if dt ≤ 0 then (c, [])
       else
         ((if (Car.updateDriving dt (Car.updateSteering dt c)).1.chassis.position.y < -10
           then Car.reset (Car.updateDriving dt (Car.updateSteering dt c)).1
           else (Car.updateDriving dt (Car.updateSteering dt c)).1),
          (Car.updateDriving dt (Car.updateSteering dt c)).2)) := rfl
  rw [hdef, if_neg (not_le.mpr hdt)]
  have hcond : (Car.updateDriving dt (Car.updateSteering dt c)).1.chassis.position.y < -10 := hy
  show (if (Car.updateDriving dt (Car.updateSteering dt c)).1.chassis.position.y < -10
        then Car.reset (Car.updateDriving dt (Car.updateSteering dt c)).1
        else (Car.updateDriving dt (Car.updateSteering dt c)).1) = Car.reset c
  rw [if_pos hcond]
  rfl

/-- Witness for C7 (amended): updating the fallen car with a normal
1/60 s timestep restores the documented rest chassis height. -/
theorem update_resets_below_floor_witness :
    (Car.update (JSNum.num (1/60)) carFall).1 = Car.reset carFall :=
  update_resets_below_floor carFall (1/60) (by norm_num)
    (show (-11 : ℚ) < -10 by norm_num)

/-! ## Lists: helper lemmas -/

lemma getD_map_range {α : Type} (n : ℕ) (f : ℕ → α) (i : ℕ) (h : i < n) (d : α) :
    ((List.range n).map f).getD i d = f i := by
  rw [List.getD_eq_getElem?_getD, List.getElem?_map, List.getElem?_range h]
  rfl

lemma map_getD_range {α β : Type} (l : List α) (g : α → β) (d : α) :
    (List.range l.length).map (fun k => g (l.getD k d)) = l.map g := by
  induction l with
  | nil => rfl
  | cons a l ih =>
    rw [List.length_cons, List.range_succ_eq_map, List.map_cons, List.map_map]
    show g a :: ((List.range l.length).map fun k => g (l.getD k d)) = _
    rw [ih, List.map_cons]

/-! ## Claim C6 -/

/-- Claim C6: after `reset()` is called in any state, every bumper
particle `i` sits exactly at its rest-offset formula relative to the
chassis rest pose — `x = chassis x + length/2 + 0.1`,
`y = chassis y - height/3`, `z` spanning the `0.9 * width` bumper arc —
with linear and angular velocity exactly zero (the chassis rest pose
being `(x, y + height, z)` of the construction position). -/
theorem reset_restores_bumper (c : Car) (h8 : c.frontBumper.bodies.length = 8)
    (i : ℕ) (hi : i < 8) :
    ((Car.reset c).frontBumper.bodies.getD i Particle.default).position =
      ⟨c.position.x + Car.length/2 + 1/10,
       (c.position.y + Car.height) - Car.height/3,
       c.position.z - (Car.width * (9/10))/2 + ((Car.width * (9/10)) / 7) * i⟩ ∧
    ((Car.reset c).frontBumper.bodies.getD i Particle.default).velocity = Vec3.zero ∧
    ((Car.reset c).frontBumper.bodies.getD i Particle.default).angularVelocity = Vec3.zero := by
  have hb : (Car.reset c).frontBumper.bodies =
      (List.range c.frontBumper.bodies.length).map (fun k =>
        { c.frontBumper.bodies.getD k Particle.default with
          position := bumperResetPosition ⟨c.position.x, c.position.y + Car.height, c.position.z⟩
            c.frontBumper.bodies.length k
          velocity := Vec3.zero
          angularVelocity := Vec3.zero }) := rfl
  rw [hb, h8, getD_map_range 8 _ i hi]
  refine ⟨?_, rfl, rfl⟩
  show bumperResetPosition ⟨c.position.x, c.position.y + Car.height, c.position.z⟩ 8 i = _
  unfold bumperResetPosition
  norm_num

/-- Witness for C6: for the freshly spawned car, bumper particle 0 is
restored to the rest-offset position with zero velocity. -/
theorem reset_restores_bumper_witness :
    ((Car.reset carA).frontBumper.bodies.getD 0 Particle.default).velocity = Vec3.zero :=
  (reset_restores_bumper carA (by decide) 0 (by norm_num)).2.1

/-! ## Springs: helper lemmas -/

lemma countP_range_pair (a b n : ℕ) :
    (List.range n).countP (fun j => j == b && decide (a < j)) =
      if a < b ∧ b < n then 1 else 0 := by
  induction n with
  | zero => simp
  | succ n ih =>
    rw [List.range_succ, List.countP_append, ih]
    simp only [List.countP_cons, List.countP_nil, beq_iff_eq, Bool.and_eq_true,
      decide_eq_true_eq]
    split_ifs <;> omega

lemma countP_springRow (positions : List Vec3) (st da : ℚ) (a b i : ℕ) :
    (springRow positions st da i).countP (fun sp => sp.i == a && sp.j == b) =
      if i = a ∧ a < b ∧ b < positions.length then 1 else 0 := by
  unfold springRow
  rw [List.countP_map, List.countP_filter]
  rcases eq_or_ne i a with hia | hia
  · subst hia
    have hpred : ∀ j : ℕ,
        (((fun sp => sp.i == i && sp.j == b) ∘ fun j =>
          ({ i := i, j := j,
             restLengthSq := Vec3.distanceToSq (positions.getD i Vec3.zero)
               (positions.getD j Vec3.zero),
             stiffness := st, damping := da } : Spring)) j && decide (i < j)) =
        (j == b && decide (i < j)) := by
      intro j
      simp [Function.comp]
    rw [List.countP_congr (fun j _ => by rw [hpred j]), countP_range_pair]
    split_ifs <;> omega
  · rw [List.countP_eq_zero.mpr, if_neg (by tauto)]
    intro j _
    simp only [Function.comp, Bool.and_eq_true, beq_iff_eq, decide_eq_true_eq, not_and]
    intro h
    exact absurd h.1 hia

lemma countP_springsUpTo (positions : List Vec3) (st da : ℚ) (a b : ℕ) :
    ∀ N, (springsUpTo positions st da N).countP (fun sp => sp.i == a && sp.j == b) =
      if a < b ∧ b < positions.length ∧ a < N then 1 else 0 := by
  intro N
  induction N with
  | zero =>
    show (List.countP _ []) = _
    rw [List.countP_nil, if_neg (by omega)]
  | succ N ih =>
    show (springsUpTo positions st da N ++ springRow positions st da N).countP _ = _
    rw [List.countP_append, ih, countP_springRow]
    split_ifs <;> omega

lemma mem_springRow {positions : List Vec3} {st da : ℚ} {i : ℕ} {sp : Spring} :
    sp ∈ springRow positions st da i ↔
      ∃ j, i < j ∧ j < positions.length ∧
        sp = { i := i, j := j,
               restLengthSq := Vec3.distanceToSq (positions.getD i Vec3.zero)
                 (positions.getD j Vec3.zero),
               stiffness := st, damping := da } := by
  unfold springRow
  simp only [List.mem_map, List.mem_filter, List.mem_range, decide_eq_true_eq]
  constructor
  · rintro ⟨j, ⟨hj, hij⟩, rfl⟩
    exact ⟨j, hij, hj, rfl⟩
  · rintro ⟨j, hij, hj, rfl⟩
    exact ⟨j, ⟨hj, hij⟩, rfl⟩

lemma mem_springsUpTo {positions : List Vec3} {st da : ℚ} {sp : Spring} :
    ∀ {N : ℕ}, sp ∈ springsUpTo positions st da N →
      ∃ i, i < N ∧ sp ∈ springRow positions st da i := by
  intro N
  induction N with
  | zero => intro h; cases h
  | succ N ih =>
    intro h
    rcases List.mem_append.mp h with h | h
    · obtain ⟨i, hi, hrow⟩ := ih h
      exact ⟨i, Nat.lt_succ_of_lt hi, hrow⟩
    · exact ⟨N, Nat.lt_succ_self N, h⟩

/-- The definitional unfolding of `Car.update` on a finite deltaTime. -/
lemma Car.update_num_def (dt : ℚ) (c : Car) :
    Car.update (JSNum.num dt) c =
      (if dt ≤ 0 then (c, [])
       else
         ((if (Car.updateDriving dt (Car.updateSteering dt c)).1.chassis.position.y < -10
           then Car.reset (Car.updateDriving dt (Car.updateSteering dt c)).1
           else (Car.updateDriving dt (Car.updateSteering dt c)).1),
          (Car.updateDriving dt (Car.updateSteering dt c)).2)) := rfl

/-! ## Claim C1 -/

/-- Claim C1: `createSoftBody(positions, mass, stiffness, damping)`
creates, for every unordered pair of particles `(i, j)`, exactly one
damped spring whose rest length is the Euclidean distance between
particle `i`'s and particle `j`'s positions at creation time (here
recorded as the squared distance, a faithful encoding) and which carries
the given stiffness and damping; and no subsequent operation — reset,
updateSteering, updateDriving or update — ever modifies any spring
(reset changes only the particles' positions and velocities: their count
and masses are preserved). -/
theorem soft_body_springs (positions : List Vec3) (mass stiffness damping : ℚ) :
    (∀ a b : ℕ, a < b → b < positions.length →
      ((PhysicsWorld.createSoftBody positions mass stiffness damping).springs.countP
        (fun sp => sp.i == a && sp.j == b)) = 1) ∧
    (∀ sp ∈ (PhysicsWorld.createSoftBody positions mass stiffness damping).springs,
      sp.i < sp.j ∧ sp.j < positions.length ∧
      sp.restLengthSq =
        Vec3.distanceToSq (positions.getD sp.i Vec3.zero) (positions.getD sp.j Vec3.zero) ∧
      sp.stiffness = stiffness ∧ sp.damping = damping) ∧
    (∀ c : Car,
      (Car.reset c).frontBumper.springs = c.frontBumper.springs ∧
      (Car.reset c).frontBumper.bodies.length = c.frontBumper.bodies.length ∧
      (Car.reset c).frontBumper.bodies.map Particle.mass =
        c.frontBumper.bodies.map Particle.mass) ∧
    (∀ (c : Car) (dt : ℚ),
      (Car.updateSteering dt c).frontBumper = c.frontBumper ∧
      (Car.updateDriving dt c).1.frontBumper = c.frontBumper) ∧
    (∀ (c : Car) (deltaTime : JSNum),
      (Car.update deltaTime c).1.frontBumper.springs = c.frontBumper.springs) := by
  refine ⟨?_, ?_, ?_, fun c dt => ⟨rfl, rfl⟩, ?_⟩
  · intro a b hab hb
    show (springsUpTo positions stiffness damping positions.length).countP _ = 1
    rw [countP_springsUpTo, if_pos ⟨hab, hb, lt_trans hab hb⟩]
  · intro sp hsp
    obtain ⟨i, _, hrow⟩ := mem_springsUpTo hsp
    rw [mem_springRow] at hrow
    obtain ⟨j, hij, hj, rfl⟩ := hrow
    exact ⟨hij, hj, rfl, rfl, rfl⟩
  · intro c
    refine ⟨rfl, ?_, ?_⟩
    · have hb : (Car.reset c).frontBumper.bodies =
          (List.range c.frontBumper.bodies.length).map (fun k =>
            { c.frontBumper.bodies.getD k Particle.default with
              position := bumperResetPosition
                ⟨c.position.x, c.position.y + Car.height, c.position.z⟩
                c.frontBumper.bodies.length k
              velocity := Vec3.zero
              angularVelocity := Vec3.zero }) := rfl
      rw [hb, List.length_map, List.length_range]
    · have hb : (Car.reset c).frontBumper.bodies.map Particle.mass =
          (List.range c.frontBumper.bodies.length).map
            (fun k => (c.frontBumper.bodies.getD k Particle.default).mass) := by
        show ((List.range c.frontBumper.bodies.length).map _).map Particle.mass = _
        rw [List.map_map]
        rfl
      rw [hb, map_getD_range]
  · intro c deltaTime
    cases deltaTime with
    | nan => rfl
    | num dt =>
      rw [Car.update_num_def]
      split_ifs <;> rfl

end SoftBodyCar
